import Mathlib

/-!
Shallow embedding of the TAIL application (`src/app.py`): the search query
construction and result formatting (`search`, lines 114-271), the incident
completeness scoring and group detail rendering (`group_details`, lines
274-431), together with models of the Python and SQLite primitives they use
(string `LIKE` matching, `GROUP_CONCAT`, `str.split`/`str.join`/`str.strip`).
SQLite `REAL` arithmetic on completeness scores is modelled by exact rational
arithmetic over `ℚ`.
-/

/-- Model of Python `str.strip()` (line 142-147): drop whitespace from both
ends of the string. -/
def pyStrip (s : String) : String :=
  ⟨(((s.data.dropWhile Char.isWhitespace).reverse).dropWhile Char.isWhitespace).reverse⟩

/-- Model of Python `str.split(sep)` restricted to a single-character
separator, as used with `','` on lines 238-239 and 250: split on every
occurrence, keeping empty fragments. -/
def splitComma : List Char → List (List Char)
  | [] => [[]]
  | c :: cs =>
    match splitComma cs with
    | [] => [[]]
    | w :: ws => if c = ',' then [] :: w :: ws else (c :: w) :: ws

/-- Python `s.split(',')` on strings. -/
def pySplit (s : String) : List String :=
  (splitComma s.data).map (fun l => ⟨l⟩)

/-- Model of Python `sep.join(xs)` (and of the comma joining performed by
SQLite `GROUP_CONCAT`). -/
def pyJoin (sep : String) : List String → String
  | [] => ""
  | [x] => x
  | x :: xs => x ++ sep ++ pyJoin sep xs

/-- SQLite `GROUP_CONCAT(DISTINCT v)` over the non-NULL values `l` collected
from a group's rows: `NULL` when there is no value, otherwise the distinct
values joined with `","`. -/
def group_concat (l : List String) : Option String :=
  match l.dedup with
  | [] => none
  | x :: xs => some (pyJoin "," (x :: xs))

/-- Fuel-indexed core of SQLite `LIKE` matching: `%` matches any sequence,
`_` matches one character, any other pattern character matches
case-insensitively.  The fuel only serves to make the recursion structural;
every call site supplies enough fuel. -/
def likeAux : Nat → List Char → List Char → Bool
  | 0, _, _ => false
  | fuel + 1, p, s =>
    match p with
    | [] => s.isEmpty
    | c :: ps =>
      if c = '%' then
        match s with
        | [] => likeAux fuel ps []
        | d :: ds => likeAux fuel ps (d :: ds) || likeAux fuel (c :: ps) ds
      else
        match s with
        | [] => false
        | d :: ds => (if c = '_' then true else c.toLower == d.toLower) && likeAux fuel ps ds

/-- SQLite `s LIKE pat` (case-insensitive). -/
def strLike (pat s : String) : Bool :=
  likeAux (pat.length + s.length + 1) pat.data s.data

/-- The `search_pattern` of line 182: `f'%{...}%'` for a non-empty query,
`'%'` otherwise. -/
def likePattern (query : String) : String :=
  if query = "" then "%" else "%" ++ query ++ "%"

/-- Lexicographic comparison of char lists by code point, written so that the
kernel can evaluate it on literals. -/
def listLeb : List Char → List Char → Bool
  | [], _ => true
  | _ :: _, [] => false
  | a :: as, b :: bs => if a = b then listLeb as bs else decide (a < b)

/-- SQLite text comparison `a <= b`: lexicographic on the code points (for
UTF-8 text this agrees with the byte-wise comparison SQLite performs, and
with Python string comparison). -/
def strLeb (a b : String) : Bool :=
  listLeb a.data b.data

/-- The comparison `strLeb` as a relation, used for the sorts below. -/
def strLeP (a b : String) : Prop :=
  strLeb a b = true

instance : DecidableRel strLeP := fun a b => inferInstanceAs (Decidable (strLeb a b = true))

/-- SQLite `MIN` aggregate over the non-NULL text values of a group. -/
def sqlMin (l : List String) : Option String :=
  l.foldr (fun s acc =>
    match acc with
    | none => some s
    | some t => some (if strLeb s t then s else t)) none

/-- SQLite `MAX` aggregate over the non-NULL text values of a group. -/
def sqlMax (l : List String) : Option String :=
  l.foldr (fun s acc =>
    match acc with
    | none => some s
    | some t => some (if strLeb s t then t else s)) none

/-- Python truthiness of a nullable string (`if row[...]`): `None` and `''`
are falsy. -/
def truthyS : Option String → Bool
  | none => false
  | some s => !(s == "")

/-- Python `x or default` on a nullable string field. -/
def pyOr (o : Option String) (d : String) : String :=
  match o with
  | none => d
  | some s => if s = "" then d else s

/-! The five relations of the data store (section 3 of the spec; table and
column names from the queries in `src/app.py`). -/

/-- Row of the `groups` table. -/
structure ThreatGroup where
  id : Nat
  name : String
  synopsis : Option String
  motivation : Option String
  total_victims : Option Nat
deriving DecidableEq

/-- Row of the `group_aliases` table (column `alias`; renamed because `alias`
is a reserved word in the proof assistant). -/
structure GroupAlias where
  group_id : Nat
  aliasName : String
deriving DecidableEq

/-- Row of the `incidents` table. -/
structure Incident where
  id : Nat
  group_id : Option Nat
  victim_name : Option String
  sector : Option String
  country : Option String
  incident_date : Option String
  data_exposed : Option String
  source_url : Option String
deriving DecidableEq

/-- Row of the `ttps` table. -/
structure Ttp where
  id : Nat
  attack_id : String
  title : String
deriving DecidableEq

/-- Row of the `incident_ttps` association table. -/
structure IncidentTtp where
  incident_id : Nat
  ttp_id : Nat
deriving DecidableEq

/-- The read-only database. -/
structure DB where
  groups : List ThreatGroup
  group_aliases : List GroupAlias
  incidents : List Incident
  ttps : List Ttp
  incident_ttps : List IncidentTtp
deriving DecidableEq

/-- The technique display string `t.attack_id || ' ' || t.title`. -/
def ttpDisplay (t : Ttp) : String :=
  t.attack_id ++ " " ++ t.title

/-- The JSON payload of a `/search` request (all six fields optional strings,
lines 142-147). -/
structure SearchPayload where
  query : String
  sector : String
  country : String
  ttp : String
  date_from : String
  date_to : String
deriving DecidableEq

/-! Semantics of the search query of lines 158-231: the four `LEFT JOIN`s,
the dynamically composed `WHERE` clause, the `GROUP BY` aggregates, the
`HAVING` filter and the `ORDER BY`. -/

/-- `LEFT JOIN` expansion of one join step whose `ON` condition selected the
rows `l`: a single `NULL` row when nothing matched, otherwise the matches. -/
def leftOpt {α : Type} (l : List α) : List (Option α) :=
  if l.isEmpty then [none] else l.map some

/-- Incidents joined to a group by `ON g.id = i.group_id` (a `NULL`
`i.group_id` matches nothing). -/
def incidentsOf (db : DB) (gid : Nat) : List Incident :=
  db.incidents.filter (fun i => i.group_id == some gid)

/-- Alias strings joined to a group by `ON g.id = ga.group_id`. -/
def aliasNamesOf (db : DB) (gid : Nat) : List String :=
  (db.group_aliases.filter (fun a => a.group_id == gid)).map GroupAlias.aliasName

/-- Technique rows reached from an incident through
`LEFT JOIN incident_ttps it ON i.id = it.incident_id` followed by
`LEFT JOIN ttps t ON it.ttp_id = t.id`; a `NULL` incident joins nothing. -/
def ttpRowsFor (db : DB) (oi : Option Incident) : List (Option Ttp) :=
  match oi with
  | none => [none]
  | some i =>
    let its := db.incident_ttps.filter (fun it => it.incident_id == i.id)
    if its.isEmpty then [none]
    else its.flatMap (fun it => leftOpt (db.ttps.filter (fun t => t.id == it.ttp_id)))

/-- One row of the joined relation, for a fixed group: the (possibly `NULL`)
incident, alias and technique columns. -/
structure SRow where
  inc : Option Incident
  al : Option String
  ttp : Option Ttp
deriving DecidableEq

/-- All join rows belonging to a group `g` (the query groups by
`g.id, g.name`, so rows are collected per group). -/
def rowsOf (db : DB) (g : ThreatGroup) : List SRow :=
  (leftOpt (incidentsOf db g.id)).flatMap fun oi =>
    (leftOpt (aliasNamesOf db g.id)).flatMap fun oa =>
      (ttpRowsFor db oi).map fun ot => ⟨oi, oa, ot⟩

/-- SQL `v LIKE pat` where `v` may be `NULL`: `NULL` is not `TRUE`. -/
def likeOpt (pat : String) : Option String → Bool
  | none => false
  | some s => strLike pat s

/-- The free-text clause appended on lines 188-198: with a non-empty query
the row must match the pattern in one of the five fields. -/
def textPasses (query pat gname : String) (r : SRow) : Bool :=
  if query = "" then true
  else
    strLike pat gname || likeOpt pat r.al || likeOpt pat (r.inc.bind Incident.sector) ||
      likeOpt pat (r.ttp.map ttpDisplay) || likeOpt pat (r.inc.bind Incident.victim_name)

/-- The clause `AND i.sector = ?` appended on lines 201-203 (exact equality;
comparison with `NULL` is not `TRUE`). -/
def sectorPasses (sector_filter : String) (r : SRow) : Bool :=
  if sector_filter = "" then true else r.inc.bind Incident.sector == some sector_filter

/-- The clause `AND i.country = ?` appended on lines 206-208. -/
def countryPasses (country_filter : String) (r : SRow) : Bool :=
  if country_filter = "" then true else r.inc.bind Incident.country == some country_filter

/-- The clause `AND (t.attack_id || ' ' || t.title) = ?` of lines 211-213. -/
def ttpPasses (ttp_filter : String) (r : SRow) : Bool :=
  if ttp_filter = "" then true else r.ttp.map ttpDisplay == some ttp_filter

/-- The clause `AND i.incident_date >= ?` of lines 216-218 (SQLite compares
text lexically; a `NULL` date is not `TRUE`). -/
def dateFromPasses (date_from : String) (r : SRow) : Bool :=
  if date_from = "" then true
  else
    match r.inc.bind Incident.incident_date with
    | none => false
    | some d => strLeb date_from d

/-- The clause `AND i.incident_date <= ?` of lines 220-222. -/
def dateToPasses (date_to : String) (r : SRow) : Bool :=
  if date_to = "" then true
  else
    match r.inc.bind Incident.incident_date with
    | none => false
    | some d => strLeb d date_to

/-- The full dynamically composed `WHERE` clause applied to one join row. -/
def rowPasses (query pat sector_filter country_filter ttp_filter date_from date_to : String)
    (g : ThreatGroup) (r : SRow) : Bool :=
  textPasses query pat g.name r && sectorPasses sector_filter r &&
    countryPasses country_filter r && ttpPasses ttp_filter r &&
    dateFromPasses date_from r && dateToPasses date_to r

/-- The `CASE WHEN ga.alias LIKE ? THEN ga.alias END` expression inside the
`matching_aliases` aggregate (line 170). -/
def matchingAliasCase (pat : String) (r : SRow) : Option String :=
  match r.al with
  | none => none
  | some a => if strLike pat a then some a else none

/-- One row of the search query result (lines 159-172), before the Python
formatting loop. -/
structure SqlGroupRow where
  group_id : Nat
  group_name : String
  incident_count : Nat
  sectors : Option String
  countries : Option String
  matched_name : Bool
  matched_alias : Bool
  matched_sector : Bool
  matched_ttp : Bool
  matched_victim : Bool
  matching_aliases : Option String
  first_incident : Option String
  last_incident : Option String
deriving DecidableEq

/-- The join rows of a group that survive the `WHERE` clause. -/
def survRows (db : DB)
    (query pat sector_filter country_filter ttp_filter date_from date_to : String)
    (g : ThreatGroup) : List SRow :=
  (rowsOf db g).filter
    (rowPasses query pat sector_filter country_filter ttp_filter date_from date_to g)

/-- The distinct surviving incident identifiers of a group
(`COUNT(DISTINCT i.id)` counts these). -/
def survIds (db : DB)
    (query pat sector_filter country_filter ttp_filter date_from date_to : String)
    (g : ThreatGroup) : List Nat :=
  ((survRows db query pat sector_filter country_filter ttp_filter date_from date_to g).filterMap
    (fun r => r.inc.map Incident.id)).dedup

/-- The non-NULL sector values of a group's surviving rows, the input of
`GROUP_CONCAT(DISTINCT i.sector)`. -/
def sectorLabels (db : DB)
    (query pat sector_filter country_filter ttp_filter date_from date_to : String)
    (g : ThreatGroup) : List String :=
  (survRows db query pat sector_filter country_filter ttp_filter date_from date_to g).filterMap
    (fun r => r.inc.bind Incident.sector)

/-- The non-NULL country values of a group's surviving rows, the input of
`GROUP_CONCAT(DISTINCT i.country)`. -/
def countryLabels (db : DB)
    (query pat sector_filter country_filter ttp_filter date_from date_to : String)
    (g : ThreatGroup) : List String :=
  (survRows db query pat sector_filter country_filter ttp_filter date_from date_to g).filterMap
    (fun r => r.inc.bind Incident.country)

/-- The aggregate result row for one group: `WHERE`-surviving rows are
aggregated; `HAVING incident_count > 0` drops the group when no (distinct)
incident survives. -/
def sqlGroupRow (db : DB)
    (query pat sector_filter country_filter ttp_filter date_from date_to : String)
    (g : ThreatGroup) : Option SqlGroupRow :=
  let rs := survRows db query pat sector_filter country_filter ttp_filter date_from date_to g
  let ids := survIds db query pat sector_filter country_filter ttp_filter date_from date_to g
  if ids.length = 0 then none
  else
    some
      { group_id := g.id
        group_name := g.name
        incident_count := ids.length
        sectors := group_concat
          (sectorLabels db query pat sector_filter country_filter ttp_filter date_from date_to g)
        countries := group_concat
          (countryLabels db query pat sector_filter country_filter ttp_filter date_from date_to g)
        matched_name := rs.any (fun _ => strLike pat g.name)
        matched_alias := rs.any (fun r => likeOpt pat r.al)
        matched_sector := rs.any (fun r => likeOpt pat (r.inc.bind Incident.sector))
        matched_ttp := rs.any (fun r => likeOpt pat (r.ttp.map ttpDisplay))
        matched_victim := rs.any (fun r => likeOpt pat (r.inc.bind Incident.victim_name))
        matching_aliases := group_concat (rs.filterMap (matchingAliasCase pat))
        first_incident := sqlMin (rs.filterMap (fun r => r.inc.bind Incident.incident_date))
        last_incident := sqlMax (rs.filterMap (fun r => r.inc.bind Incident.incident_date)) }

/-- The `ORDER BY incident_count DESC, g.name ASC` relation of line 228. -/
def groupOrder (a b : SqlGroupRow) : Prop :=
  b.incident_count < a.incident_count ∨
    (a.incident_count = b.incident_count ∧ a.group_name ≤ b.group_name)

instance : DecidableRel groupOrder := fun a b => by
  unfold groupOrder
  exact inferInstance

/-- One entry of the JSON array returned by `/search` (lines 260-269). -/
structure GroupSummary where
  group_id : Nat
  group_name : String
  incident_count : Nat
  sectors : List String
  countries : List String
  match_reasons : List String
  first_incident : Option String
  last_incident : Option String
deriving DecidableEq

/-- Lines 238-243: split the comma-joined aggregate, drop falsy fragments,
deduplicate and sort (`sorted(list(set(filter(None, ...))))`). -/
def pyListField (o : Option String) : List String :=
  match o with
  | none => []
  | some s =>
    if s = "" then []
    else List.insertionSort strLeP (((pySplit s).filter (fun x => !(x == ""))).dedup)

/-- Lines 246-258: the list of match reasons, in the fixed order name, alias,
sector, ttp, victim. -/
def matchReasons (row : SqlGroupRow) : List String :=
  (if row.matched_name then ["Group Name"] else []) ++
    (if row.matched_alias && truthyS row.matching_aliases then
        ["Alias: " ++
          pyJoin ", "
            (((pySplit (row.matching_aliases.getD "")).filter (fun a => !(a == ""))).take 2)]
      else []) ++
    (if row.matched_sector then ["Sector"] else []) ++
    (if row.matched_ttp then ["TTP"] else []) ++
    (if row.matched_victim then ["Victim Name"] else [])

/-- The Python formatting loop body (lines 236-269) applied to one SQL row. -/
def pyFormat (row : SqlGroupRow) : GroupSummary :=
  { group_id := row.group_id
    group_name := row.group_name
    incident_count := row.incident_count
    sectors := pyListField row.sectors
    countries := pyListField row.countries
    match_reasons := matchReasons row
    first_incident := row.first_incident
    last_incident := row.last_incident }

/-- The `/search` route (lines 114-271): strip the six payload fields, build
the pattern, evaluate the aggregation query per group, order the result rows
and format them. -/
def search (db : DB) (p : SearchPayload) : List GroupSummary :=
  let query := pyStrip p.query
  let sector_filter := pyStrip p.sector
  let country_filter := pyStrip p.country
  let ttp_filter := pyStrip p.ttp
  let date_from := pyStrip p.date_from
  let date_to := pyStrip p.date_to
  let pat := likePattern query
  let rows := db.groups.filterMap
    (sqlGroupRow db query pat sector_filter country_filter ttp_filter date_from date_to)
  (List.insertionSort groupOrder rows).map pyFormat

/-! Semantics of the `/group/id/<int:group_id>` route (lines 274-431): the
group lookup, the completeness-scored incident query of lines 364-388 and the
summary enrichment. -/

/-- SQL `v IS NOT NULL AND v != ''` on a nullable text column. -/
def populated : Option String → Bool
  | none => false
  | some s => !(s == "")

/-- The completeness score computed by the incident query (lines 374-383):
one point per populated field among sector, data_exposed and source_url, plus
`LENGTH(COALESCE(data_exposed, '')) / 100.0`, plus
`COUNT(*) * 0.5` over the incident's rows in `incident_ttps`.  SQLite `REAL`
arithmetic is modelled exactly over `ℚ`. -/
def completeness_score (db : DB) (i : Incident) : ℚ :=
  ((if populated i.sector then 1 else 0) +
      (if populated i.data_exposed then 1 else 0) +
      (if populated i.source_url then 1 else 0) : ℚ) +
    (((i.data_exposed.getD "").length : ℚ) / 100) +
    (((db.incident_ttps.filter (fun it => it.incident_id == i.id)).length : ℚ) * (0.5 : ℚ))

/-- Comparison of nullable incident dates as SQLite orders them: `NULL`
sorts below every text value (so it comes last under `DESC`). -/
def odle : Option String → Option String → Prop
  | none, _ => True
  | some _, none => False
  | some s, some t => s ≤ t

instance : DecidableRel odle := fun a b => by
  unfold odle
  cases a <;> cases b <;> exact inferInstance

/-- The `ORDER BY completeness_score DESC, i.incident_date DESC` relation of
line 387, on (incident, score) result rows. -/
def incOrder (a b : Incident × ℚ) : Prop :=
  b.2 < a.2 ∨ (a.2 = b.2 ∧ odle b.1.incident_date a.1.incident_date)

instance : DecidableRel incOrder := fun a b => by
  unfold incOrder
  exact inferInstance

/-- The `incidents_raw` result set of lines 364-388: each incident of the
group paired with its completeness score, ordered by score descending then
date descending. -/
def incidents_raw (db : DB) (gid : Nat) : List (Incident × ℚ) :=
  List.insertionSort incOrder
    ((db.incidents.filter (fun i => i.group_id == some gid)).map
      (fun i => (i, completeness_score db i)))

/-- The `ORDER BY t.attack_id` relation used by the technique queries. -/
def attackIdOrder (a b : Ttp) : Prop :=
  strLeP a.attack_id b.attack_id

instance : DecidableRel attackIdOrder := fun a b =>
  inferInstanceAs (Decidable (strLeP a.attack_id b.attack_id))

/-- The per-incident technique display strings of lines 394-400 (`ttps` joined
through `incident_ttps`, ordered by `attack_id`). -/
def incidentTtpNames (db : DB) (iid : Nat) : List String :=
  (List.insertionSort attackIdOrder
      ((db.incident_ttps.filter (fun it => it.incident_id == iid)).flatMap
        (fun it => db.ttps.filter (fun t => t.id == it.ttp_id)))).map ttpDisplay

/-- One entry of the `incidents` template list (lines 405-413). -/
structure IncidentView where
  victim_name : String
  victim_sector : String
  victim_country : String
  date_of_leak : String
  data_exposed : String
  mitre_ttps : String
  source_url : Option String
deriving DecidableEq

/-- The loop body of lines 392-413 applied to one scored incident row. -/
def incidentView (db : DB) (x : Incident × ℚ) : IncidentView :=
  let ttpNames := incidentTtpNames db x.1.id
  { victim_name := pyOr x.1.victim_name "Unknown Victim"
    victim_sector := pyOr x.1.sector "N/A"
    victim_country := pyOr x.1.country "N/A"
    date_of_leak := pyOr x.1.incident_date "N/A"
    data_exposed := pyOr x.1.data_exposed "N/A"
    mitre_ttps := if ttpNames.isEmpty then "N/A" else pyJoin ", " ttpNames
    source_url := x.1.source_url }

/-- Modelled from the spec: the `group_activity_summary` database view is not
part of the repository's source; section 6 of the spec describes it as "one
derived aggregate exposing per-group first/last incident date and total
incident count".  It is modelled as that aggregate over `incidents`, with no
row for a group without incidents. -/
def groupActivity (db : DB) (gid : Nat) : Option (Option String × Option String × Nat) :=
  let incs := incidentsOf db gid
  if incs.isEmpty then none
  else
    some (sqlMin (incs.filterMap Incident.incident_date),
      sqlMax (incs.filterMap Incident.incident_date), incs.length)

/-- The template variables of the group detail page: the `summary` dict of
lines 418-429 together with the `incidents` list. -/
structure GroupDetail where
  group_name : String
  aliases : String
  synopsis : String
  motivation : String
  regions : String
  industries : String
  mitre_ttps : String
  total_victims : String
  first_seen : String
  last_seen : String
  incidents : List IncidentView
deriving DecidableEq

/-- The `/group/id/<int:group_id>` route (lines 274-431): `None` models the
404 "Group not found" response of lines 302-304; otherwise the full detail
payload is produced. -/
def group_details (db : DB) (gid : Nat) : Option GroupDetail :=
  match db.groups.find? (fun g => g.id == gid) with
  | none => none
  | some g =>
    let aliasSorted := List.insertionSort strLeP (aliasNamesOf db gid)
    let alias_list := g.name :: aliasSorted
    let countriesD := List.insertionSort strLeP
      ((((incidentsOf db gid).filterMap Incident.country).filter (fun c => !(c == ""))).dedup)
    let industriesD := List.insertionSort strLeP
      ((((incidentsOf db gid).filterMap Incident.sector).filter (fun c => !(c == ""))).dedup)
    let activity := groupActivity db gid
    let gttps := ((db.incident_ttps.filter
        (fun it => (incidentsOf db gid).any (fun i => i.id == it.incident_id))).flatMap
      (fun it => db.ttps.filter (fun t => t.id == it.ttp_id)))
    let gttpNames := ((List.insertionSort attackIdOrder gttps).map ttpDisplay).dedup
    some
      { group_name := g.name
        aliases := if alias_list.length > 1 then pyJoin ", " alias_list.tail else "N/A"
        synopsis := pyOr g.synopsis "No synopsis available."
        motivation := pyOr g.motivation "N/A"
        regions := if countriesD.isEmpty then "N/A" else pyJoin ", " countriesD
        industries := if industriesD.isEmpty then "N/A" else pyJoin ", " industriesD
        mitre_ttps := if gttpNames.isEmpty then "N/A" else pyJoin ", " gttpNames
        total_victims :=
          match g.total_victims with
          | none => "0"
          | some n => if n = 0 then "0" else toString n
        first_seen :=
          match activity with
          | none => "N/A"
          | some (f, _, _) => match f with | none => "N/A" | some d => if d = "" then "N/A" else d
        last_seen :=
          match activity with
          | none => "N/A"
          | some (_, l, _) => match l with | none => "N/A" | some d => if d = "" then "N/A" else d
        incidents := (incidents_raw db gid).map (incidentView db) }

/-! The SQL text built by lines 158-229.  The construction interleaves the
query string and the bound-parameter list exactly as the code does; the text
of each fragment is that of the source (whitespace flattened to single
spaces, SQL comments dropped). -/

/-- Lines 158-179: the fixed head of the query, through `WHERE 1=1`. -/
def searchSqlBase : String :=
  "SELECT g.id AS group_id, g.name AS group_name, COUNT(DISTINCT i.id) AS incident_count, GROUP_CONCAT(DISTINCT i.sector) AS sectors, GROUP_CONCAT(DISTINCT i.country) AS countries, MAX(CASE WHEN g.name LIKE ? THEN 1 ELSE 0 END) AS matched_name, MAX(CASE WHEN ga.alias LIKE ? THEN 1 ELSE 0 END) AS matched_alias, MAX(CASE WHEN i.sector LIKE ? THEN 1 ELSE 0 END) AS matched_sector, MAX(CASE WHEN (t.attack_id || \x27 \x27 || t.title) LIKE ? THEN 1 ELSE 0 END) AS matched_ttp, MAX(CASE WHEN i.victim_name LIKE ? THEN 1 ELSE 0 END) AS matched_victim, GROUP_CONCAT(DISTINCT CASE WHEN ga.alias LIKE ? THEN ga.alias END) AS matching_aliases, MIN(i.incident_date) AS first_incident, MAX(i.incident_date) AS last_incident FROM groups g LEFT JOIN incidents i ON g.id = i.group_id LEFT JOIN group_aliases ga ON g.id = ga.group_id LEFT JOIN incident_ttps it ON i.id = it.incident_id LEFT JOIN ttps t ON it.ttp_id = t.id WHERE 1=1"

/-- Lines 189-197: the free-text clause appended when the query is non-empty. -/
def searchSqlTextClause : String :=
  " AND ( g.name LIKE ? OR ga.alias LIKE ? OR i.sector LIKE ? OR (t.attack_id || \x27 \x27 || t.title) LIKE ? OR i.victim_name LIKE ? )"

/-- Lines 225-229: grouping, `HAVING` and ordering. -/
def searchSqlTail : String :=
  " GROUP BY g.id, g.name HAVING incident_count > 0 ORDER BY incident_count DESC, g.name ASC"

/-- Lines 141-229: the SQL text and the bound parameter list, built exactly in
the source's order — six copies of the match pattern first, then one clause
and its parameters per non-empty filter field. -/
def searchSql (p : SearchPayload) : String × List String :=
  let query := pyStrip p.query
  let sector_filter := pyStrip p.sector
  let country_filter := pyStrip p.country
  let ttp_filter := pyStrip p.ttp
  let date_from := pyStrip p.date_from
  let date_to := pyStrip p.date_to
  let sql := searchSqlBase
  let search_pattern := if query = "" then "%" else "%" ++ query ++ "%"
  let params : List String := List.replicate 6 search_pattern
  let sql := if query = "" then sql else sql ++ searchSqlTextClause
  let params := if query = "" then params else params ++ List.replicate 5 search_pattern
  let sql := if sector_filter = "" then sql else sql ++ " AND i.sector = ?"
  let params := if sector_filter = "" then params else params ++ [sector_filter]
  let sql := if country_filter = "" then sql else sql ++ " AND i.country = ?"
  let params := if country_filter = "" then params else params ++ [country_filter]
  let sql := if ttp_filter = "" then sql else sql ++ " AND (t.attack_id || \x27 \x27 || t.title) = ?"
  let params := if ttp_filter = "" then params else params ++ [ttp_filter]
  let sql := if date_from = "" then sql else sql ++ " AND i.incident_date >= ?"
  let params := if date_from = "" then params else params ++ [date_from]
  let sql := if date_to = "" then sql else sql ++ " AND i.incident_date <= ?"
  let params := if date_to = "" then params else params ++ [date_to]
  (sql ++ searchSqlTail, params)

/-- The query text as a function of which filter fields are empty only, used
to state that user-supplied values never reach the query string. -/
def sqlOfFlags (qe se ce te fe le : Bool) : String :=
  let sql := searchSqlBase
  let sql := bif qe then sql else sql ++ searchSqlTextClause
  let sql := bif se then sql else sql ++ " AND i.sector = ?"
  let sql := bif ce then sql else sql ++ " AND i.country = ?"
  let sql := bif te then sql else sql ++ " AND (t.attack_id || \x27 \x27 || t.title) = ?"
  let sql := bif fe then sql else sql ++ " AND i.incident_date >= ?"
  let sql := bif le then sql else sql ++ " AND i.incident_date <= ?"
  sql ++ searchSqlTail

/-- The completeness scoring formula as section 4.2 of the spec words it:
presence bonus plus length bonus plus `0.5 ×` the count of distinct
techniques associated with the incident — a function of the incident's own
fields and that count only. -/
def spec_completeness_score (i : Incident) (techniqueCount : Nat) : ℚ :=
  ((if populated i.sector then 1 else 0) + (if populated i.data_exposed then 1 else 0) +
      (if populated i.source_url then 1 else 0) : ℚ) +
    (((i.data_exposed.getD "").length : ℚ) / 100) + (0.5 : ℚ) * (techniqueCount : ℚ)

/-- The number of distinct techniques associated with an incident. -/
def distinctTechniqueCount (db : DB) (i : Incident) : Nat :=
  (((db.incident_ttps.filter (fun it => it.incident_id == i.id)).map
    IncidentTtp.ttp_id).dedup).length

/-! Statements of the claims, as predicates over the embedded program, so that
the witnesses below can instantiate them on concrete inputs. -/

/-- Statement of claim C1 as amended: a group entry of a search result carries
an alias match reason exactly when the group has a non-empty alias matching
the LIKE pattern built from the stripped query. -/
def c1Prop (db : DB) (p : SearchPayload) (e : GroupSummary) : Prop :=
  (∃ s ∈ e.match_reasons, ∃ t, s = "Alias: " ++ t) ↔
    ∃ a ∈ aliasNamesOf db e.group_id, a ≠ "" ∧ strLike (likePattern (pyStrip p.query)) a = true

/-- Statement of claim C3: with all six filter fields empty, the search
result contains exactly the groups having at least one incident, each with
its distinct incident count, ordered by incident count descending then group
name ascending. -/
def c3Prop (db : DB) (p : SearchPayload) : Prop :=
  (∀ g ∈ db.groups,
      ((∃ e ∈ search db p, e.group_id = g.id ∧ e.group_name = g.name) ↔
        ∃ i ∈ db.incidents, i.group_id = some g.id)) ∧
    (∀ e ∈ search db p,
      ∃ g ∈ db.groups, e.group_id = g.id ∧ e.group_name = g.name ∧
        ∃ i ∈ db.incidents, i.group_id = some g.id) ∧
    (∀ e ∈ search db p,
      e.incident_count =
        ((db.incidents.filter (fun i => i.group_id == some e.group_id)).map
          Incident.id).dedup.length) ∧
    (search db p).Pairwise (fun a b =>
      b.incident_count < a.incident_count ∨
        (a.incident_count = b.incident_count ∧ a.group_name ≤ b.group_name))

/-- Statement of claim C10 (general part): the sectors and countries lists of
a result entry equal the sorted distinct non-empty labels of the group's
surviving incidents provided no label contains a comma (the lists are
produced by comma-joining and re-splitting). -/
def c10Prop (db : DB) (p : SearchPayload) (e : GroupSummary) : Prop :=
  ∃ g ∈ db.groups, e.group_id = g.id ∧
    ((∀ l ∈ sectorLabels db (pyStrip p.query) (likePattern (pyStrip p.query)) (pyStrip p.sector)
          (pyStrip p.country) (pyStrip p.ttp) (pyStrip p.date_from) (pyStrip p.date_to) g,
        ',' ∉ l.data) →
      e.sectors =
        List.insertionSort strLeP
          (((sectorLabels db (pyStrip p.query) (likePattern (pyStrip p.query)) (pyStrip p.sector)
            (pyStrip p.country) (pyStrip p.ttp) (pyStrip p.date_from) (pyStrip p.date_to)
            g).dedup).filter (fun x => !(x == "")))) ∧
    ((∀ l ∈ countryLabels db (pyStrip p.query) (likePattern (pyStrip p.query)) (pyStrip p.sector)
          (pyStrip p.country) (pyStrip p.ttp) (pyStrip p.date_from) (pyStrip p.date_to) g,
        ',' ∉ l.data) →
      e.countries =
        List.insertionSort strLeP
          (((countryLabels db (pyStrip p.query) (likePattern (pyStrip p.query)) (pyStrip p.sector)
            (pyStrip p.country) (pyStrip p.ttp) (pyStrip p.date_from) (pyStrip p.date_to)
            g).dedup).filter (fun x => !(x == ""))))

/-! Concrete databases, payloads and rows used to instantiate the theorems
below on explicit inputs. -/

/-- The search payload with every filter field empty. -/
def pEmpty : SearchPayload := ⟨"", "", "", "", "", ""⟩

/-- A group row used by the example databases. -/
def exG : ThreatGroup := ⟨1, "alpha", none, none, none⟩

/-- One group with the alias "cobra" and one incident whose nullable fields
are all NULL. -/
def exDb1 : DB :=
  ⟨[exG], [⟨1, "cobra"⟩], [⟨1, some 1, none, none, none, none, none, none⟩], [], []⟩

/-- One group with two incidents carrying sectors "b", "a" and countries
"y", "x". -/
def exDb9 : DB :=
  ⟨[exG], [],
    [⟨1, some 1, none, some "b", some "y", none, none, none⟩,
      ⟨2, some 1, none, some "a", some "x", none, none, none⟩], [], []⟩

/-- One group whose single incident carries the comma-containing sector
label "A,B". -/
def exDb10 : DB :=
  ⟨[exG], [], [⟨1, some 1, none, some "A,B", none, none, none, none⟩], [], []⟩

/-- One group with a single incident and no technique associations. -/
def exDb2 : DB :=
  ⟨[exG], [], [⟨1, some 1, none, none, none, none, none, none⟩], [], []⟩

/-- An incident dated 2023-01-01 and a join row holding it. -/
def exInc7 : Incident := ⟨1, some 1, none, none, none, some "2023-01-01", none, none⟩

/-- A join row whose incident is `exInc7`. -/
def exRow7 : SRow := ⟨some exInc7, none, none⟩

/-- A join row whose incident's sector contains "Healthcare" strictly as a
substring of a different label. -/
def exRow8 : SRow :=
  ⟨some ⟨1, some 1, none, some "US Healthcare Sector", none, none, none, none⟩, none, none⟩

/-! General lemmas about the embedded primitives. -/

theorem listLeb_le_iff : ∀ (a b : List Char), listLeb a b = true ↔ a ≤ b
  | [], b => by
    simp [listLeb, List.nil_le]
  | a :: as, [] => by
    apply iff_of_false
    · simp [listLeb]
    · exact not_le.mpr (List.nil_lt_cons a as)
  | a :: as, b :: bs => by
    rcases lt_trichotomy a b with h | h | h
    · apply iff_of_true
      · simp [listLeb, if_neg (ne_of_lt h), h]
      · exact le_of_lt (List.Lex.rel h)
    · subst h
      simp only [listLeb, eq_self_iff_true, if_true]
      rw [listLeb_le_iff as bs]
      constructor
      · exact fun h2 => List.cons_le_cons a h2
      · intro h2
        rw [← not_lt] at h2 ⊢
        exact fun hlt => h2 (List.Lex.cons hlt)
    · apply iff_of_false
      · simp [listLeb, if_neg (ne_of_gt h), not_lt_of_gt h]
      · exact not_le.mpr (List.Lex.rel h)

theorem strLeb_le_iff (a b : String) : strLeb a b = true ↔ a ≤ b := by
  rw [String.le_iff_toList_le]
  exact listLeb_le_iff a.data b.data

theorem strLeP_iff (a b : String) : strLeP a b ↔ a ≤ b :=
  strLeb_le_iff a b

instance : IsTotal String strLeP :=
  ⟨fun a b => by rw [strLeP_iff, strLeP_iff]; exact le_total a b⟩

instance : IsTrans String strLeP :=
  ⟨fun a b c h1 h2 => by
    rw [strLeP_iff] at h1 h2 ⊢
    exact le_trans h1 h2⟩

instance : IsAntisymm String strLeP :=
  ⟨fun a b h1 h2 => by
    rw [strLeP_iff] at h1 h2
    exact le_antisymm h1 h2⟩

theorem odle_total (a b : Option String) : odle a b ∨ odle b a := by
  cases a <;> cases b <;> simp [odle]
  exact le_total _ _

theorem odle_trans {a b c : Option String} (h1 : odle a b) (h2 : odle b c) : odle a c := by
  cases a <;> cases b <;> cases c <;> simp [odle] at *
  exact le_trans h1 h2

instance : IsTotal SqlGroupRow groupOrder :=
  ⟨fun a b => by
    unfold groupOrder
    rcases lt_trichotomy a.incident_count b.incident_count with h | h | h
    · exact Or.inr (Or.inl h)
    · rcases le_total a.group_name b.group_name with hn | hn
      · exact Or.inl (Or.inr ⟨h, hn⟩)
      · exact Or.inr (Or.inr ⟨h.symm, hn⟩)
    · exact Or.inl (Or.inl h)⟩

instance : IsTrans SqlGroupRow groupOrder :=
  ⟨fun a b c hab hbc => by
    unfold groupOrder at hab hbc ⊢
    rcases hab with h1 | ⟨h1, hn1⟩ <;> rcases hbc with h2 | ⟨h2, hn2⟩
    · exact Or.inl (lt_trans h2 h1)
    · exact Or.inl (h2 ▸ h1)
    · exact Or.inl (by rw [h1]; exact h2)
    · exact Or.inr ⟨h1.trans h2, le_trans hn1 hn2⟩⟩

instance : IsTotal (Incident × ℚ) incOrder :=
  ⟨fun a b => by
    unfold incOrder
    rcases lt_trichotomy a.2 b.2 with h | h | h
    · exact Or.inr (Or.inl h)
    · rcases odle_total b.1.incident_date a.1.incident_date with hd | hd
      · exact Or.inl (Or.inr ⟨h, hd⟩)
      · exact Or.inr (Or.inr ⟨h.symm, hd⟩)
    · exact Or.inl (Or.inl h)⟩

instance : IsTrans (Incident × ℚ) incOrder :=
  ⟨fun a b c hab hbc => by
    unfold incOrder at hab hbc ⊢
    rcases hab with h1 | ⟨h1, hd1⟩ <;> rcases hbc with h2 | ⟨h2, hd2⟩
    · exact Or.inl (lt_trans h2 h1)
    · exact Or.inl (h2 ▸ h1)
    · exact Or.inl (by rw [h1]; exact h2)
    · exact Or.inr ⟨h1.trans h2, odle_trans hd2 hd1⟩⟩

theorem mem_leftOpt_some {α : Type} {x : α} {l : List α} : some x ∈ leftOpt l ↔ x ∈ l := by
  unfold leftOpt
  by_cases h : l.isEmpty
  · rw [List.isEmpty_iff] at h
    subst h
    simp
  · rw [if_neg h]
    simp

theorem mem_leftOpt_none {α : Type} {l : List α} : none ∈ leftOpt l ↔ l = [] := by
  unfold leftOpt
  by_cases h : l.isEmpty
  · rw [List.isEmpty_iff] at h
    subst h
    simp
  · rw [if_neg h, List.isEmpty_iff] at *
    simp [h]

theorem leftOpt_ne_nil {α : Type} (l : List α) : leftOpt l ≠ [] := by
  unfold leftOpt
  by_cases h : l.isEmpty
  · simp [h]
  · rw [if_neg h, List.isEmpty_iff] at *
    simp [h]

theorem ttpRowsFor_ne_nil (db : DB) (oi : Option Incident) : ttpRowsFor db oi ≠ [] := by
  unfold ttpRowsFor
  cases oi with
  | none => simp
  | some i =>
    simp only
    by_cases h : (db.incident_ttps.filter (fun it => it.incident_id == i.id)).isEmpty
    · simp [h]
    · rw [if_neg h]
      intro hc
      rw [List.flatMap_eq_nil_iff] at hc
      rw [List.isEmpty_iff] at h
      rcases List.exists_mem_of_ne_nil _ h with ⟨it, hit⟩
      exact leftOpt_ne_nil _ (hc it hit)

theorem mem_rowsOf {db : DB} {g : ThreatGroup} {r : SRow} :
    r ∈ rowsOf db g ↔
      r.inc ∈ leftOpt (incidentsOf db g.id) ∧ r.al ∈ leftOpt (aliasNamesOf db g.id) ∧
        r.ttp ∈ ttpRowsFor db r.inc := by
  unfold rowsOf
  simp only [List.mem_flatMap, List.mem_map]
  constructor
  · rintro ⟨oi, hoi, oa, hoa, ot, hot, rfl⟩
    exact ⟨hoi, hoa, hot⟩
  · rintro ⟨h1, h2, h3⟩
    exact ⟨r.inc, h1, r.al, h2, r.ttp, h3, rfl⟩

theorem dedup_length_eq_of_mem_iff {α : Type} [DecidableEq α] {l₁ l₂ : List α}
    (h : ∀ a, a ∈ l₁ ↔ a ∈ l₂) : l₁.dedup.length = l₂.dedup.length := by
  have h₁ : List.Subperm l₁.dedup l₂.dedup :=
    (List.nodup_dedup l₁).subperm (fun a ha => by
      rw [List.mem_dedup] at ha ⊢
      exact (h a).mp ha)
  have h₂ : List.Subperm l₂.dedup l₁.dedup :=
    (List.nodup_dedup l₂).subperm (fun a ha => by
      rw [List.mem_dedup] at ha ⊢
      exact (h a).mpr ha)
  exact (h₁.antisymm h₂).length_eq

theorem splitComma_ne_nil (l : List Char) : splitComma l ≠ [] := by
  induction l with
  | nil => simp [splitComma]
  | cons c cs ih =>
    simp only [splitComma]
    rcases h : splitComma cs with _ | ⟨w, ws⟩
    · simp
    · by_cases hc : c = ',' <;> simp [hc]

theorem splitComma_no_comma {l : List Char} (h : ',' ∉ l) : splitComma l = [l] := by
  induction l with
  | nil => rfl
  | cons c cs ih =>
    have hc : c ≠ ',' := fun he => h (he ▸ List.mem_cons_self c cs)
    have hcs : ',' ∉ cs := fun hm => h (List.mem_cons_of_mem c hm)
    simp only [splitComma, ih hcs]
    simp [fun he => hc (he : c = ',')]

theorem splitComma_cons (c : Char) (cs : List Char) :
    splitComma (c :: cs) =
      match splitComma cs with
      | [] => [[]]
      | w :: ws => if c = ',' then [] :: w :: ws else (c :: w) :: ws := rfl

theorem splitComma_append_comma {l : List Char} (m : List Char) (h : ',' ∉ l) :
    splitComma (l ++ ',' :: m) = l :: splitComma m := by
  induction l with
  | nil =>
    rcases hm : splitComma m with _ | ⟨w, ws⟩
    · exact absurd hm (splitComma_ne_nil m)
    · rw [List.nil_append, splitComma_cons, hm]
      simp
  | cons c cs ih =>
    have hc : c ≠ ',' := fun he => h (he ▸ List.mem_cons_self c cs)
    have hcs : ',' ∉ cs := fun hm => h (List.mem_cons_of_mem c hm)
    rcases hm : splitComma (cs ++ ',' :: m) with _ | ⟨w, ws⟩
    · exact absurd hm (splitComma_ne_nil _)
    · have h2 : w :: ws = cs :: splitComma m := hm.symm.trans (ih hcs)
      injection h2 with h3 h4
      rw [List.cons_append, splitComma_cons, hm]
      simp [hc, h3, h4]

theorem pySplit_pyJoin : ∀ (xs : List String), xs ≠ [] → (∀ x ∈ xs, ',' ∉ x.data) →
    pySplit (pyJoin "," xs) = xs
  | [], h, _ => absurd rfl h
  | [x], _, hc => by
    unfold pySplit
    rw [pyJoin, splitComma_no_comma (hc x (List.mem_singleton_self x))]
    rfl
  | x :: y :: rest, _, hc => by
    have hx : ',' ∉ x.data := hc x (List.mem_cons_self _ _)
    have hd : (x ++ "," ++ pyJoin "," (y :: rest)).data =
        x.data ++ ',' :: (pyJoin "," (y :: rest)).data := by
      rw [String.data_append, String.data_append]
      simp
    unfold pySplit
    rw [show pyJoin "," (x :: y :: rest) = x ++ "," ++ pyJoin "," (y :: rest) from rfl,
      hd, splitComma_append_comma _ hx]
    have ih := pySplit_pyJoin (y :: rest) (by simp) (fun a ha => hc a (List.mem_cons_of_mem x ha))
    unfold pySplit at ih
    simp only [List.map_cons, ih]

theorem pyJoin_comma_eq_empty : ∀ (x : String) (xs : List String),
    (pyJoin "," (x :: xs) = "" ↔ (x = "" ∧ xs = []))
  | x, [] => by
    rw [pyJoin]
    simp
  | x, y :: t => by
    apply iff_of_false
    · rw [show pyJoin "," (x :: y :: t) = x ++ "," ++ pyJoin "," (y :: t) from rfl]
      intro he
      have hd := congrArg String.data he
      rw [String.data_append, String.data_append] at hd
      simp at hd
    · simp

theorem truthy_group_concat (l : List String) :
    truthyS (group_concat l) = true ↔ ∃ s ∈ l, s ≠ "" := by
  rcases h : l.dedup with _ | ⟨x, xs⟩
  · rw [List.dedup_eq_nil] at h
    subst h
    simp [group_concat, truthyS]
  · have hmem : ∀ s, s ∈ l ↔ s ∈ x :: xs := fun s => by rw [← h, List.mem_dedup]
    have hnd : (x :: xs).Nodup := h ▸ List.nodup_dedup l
    have htr : truthyS (group_concat l) = true ↔ pyJoin "," (x :: xs) ≠ "" := by
      unfold group_concat
      rw [h]
      simp [truthyS]
    rw [htr, Ne, pyJoin_comma_eq_empty]
    constructor
    · intro hne
      by_cases hx : x = ""
      · subst hx
        rcases xs with _ | ⟨y, t⟩
        · exact absurd ⟨rfl, rfl⟩ hne
        · refine ⟨y, (hmem y).mpr (by simp), ?_⟩
          intro hy
          subst hy
          exact (List.nodup_cons.mp hnd).1 (by simp)
      · exact ⟨x, (hmem x).mpr (by simp), hx⟩
    · rintro ⟨s, hs, hsne⟩ ⟨hx, hxs⟩
      rw [hmem s, hx, hxs] at hs
      simp at hs
      exact hsne hs

section SearchLemmas

variable (db : DB) (q pat sf cf tf df dt : String) (g : ThreatGroup)

theorem sqlGroupRow_def :
    sqlGroupRow db q pat sf cf tf df dt g =
      if (survIds db q pat sf cf tf df dt g).length = 0 then none
      else
        some
          { group_id := g.id
            group_name := g.name
            incident_count := (survIds db q pat sf cf tf df dt g).length
            sectors := group_concat (sectorLabels db q pat sf cf tf df dt g)
            countries := group_concat (countryLabels db q pat sf cf tf df dt g)
            matched_name :=
              (survRows db q pat sf cf tf df dt g).any (fun _ => strLike pat g.name)
            matched_alias :=
              (survRows db q pat sf cf tf df dt g).any (fun r => likeOpt pat r.al)
            matched_sector :=
              (survRows db q pat sf cf tf df dt g).any
                (fun r => likeOpt pat (r.inc.bind Incident.sector))
            matched_ttp :=
              (survRows db q pat sf cf tf df dt g).any
                (fun r => likeOpt pat (r.ttp.map ttpDisplay))
            matched_victim :=
              (survRows db q pat sf cf tf df dt g).any
                (fun r => likeOpt pat (r.inc.bind Incident.victim_name))
            matching_aliases :=
              group_concat
                ((survRows db q pat sf cf tf df dt g).filterMap (matchingAliasCase pat))
            first_incident :=
              sqlMin
                ((survRows db q pat sf cf tf df dt g).filterMap
                  (fun r => r.inc.bind Incident.incident_date))
            last_incident :=
              sqlMax
                ((survRows db q pat sf cf tf df dt g).filterMap
                  (fun r => r.inc.bind Incident.incident_date)) } := rfl

theorem search_eq (p : SearchPayload) :
    search db p =
      (List.insertionSort groupOrder
          (db.groups.filterMap
            (sqlGroupRow db (pyStrip p.query) (likePattern (pyStrip p.query)) (pyStrip p.sector)
              (pyStrip p.country) (pyStrip p.ttp) (pyStrip p.date_from)
              (pyStrip p.date_to)))).map pyFormat := rfl

theorem mem_search {p : SearchPayload} {e : GroupSummary} :
    e ∈ search db p ↔
      ∃ g2 ∈ db.groups, ∃ row,
        sqlGroupRow db (pyStrip p.query) (likePattern (pyStrip p.query)) (pyStrip p.sector)
            (pyStrip p.country) (pyStrip p.ttp) (pyStrip p.date_from) (pyStrip p.date_to) g2 =
          some row ∧ e = pyFormat row := by
  rw [search_eq]
  simp only [List.mem_map]
  constructor
  · rintro ⟨row, hrow, rfl⟩
    rw [(List.perm_insertionSort groupOrder _).mem_iff] at hrow
    rcases List.mem_filterMap.mp hrow with ⟨g2, hg, hsome⟩
    exact ⟨g2, hg, row, hsome, rfl⟩
  · rintro ⟨g2, hg, row, hsome, rfl⟩
    refine ⟨row, ?_, rfl⟩
    rw [(List.perm_insertionSort groupOrder _).mem_iff]
    exact List.mem_filterMap.mpr ⟨g2, hg, hsome⟩

theorem sqlGroupRow_fields {row : SqlGroupRow}
    (h : sqlGroupRow db q pat sf cf tf df dt g = some row) :
    survIds db q pat sf cf tf df dt g ≠ [] ∧
      row.group_id = g.id ∧ row.group_name = g.name ∧
      row.incident_count = (survIds db q pat sf cf tf df dt g).length ∧
      row.sectors = group_concat (sectorLabels db q pat sf cf tf df dt g) ∧
      row.countries = group_concat (countryLabels db q pat sf cf tf df dt g) ∧
      row.matched_alias =
        (survRows db q pat sf cf tf df dt g).any (fun r => likeOpt pat r.al) ∧
      row.matching_aliases =
        group_concat ((survRows db q pat sf cf tf df dt g).filterMap (matchingAliasCase pat)) := by
  rw [sqlGroupRow_def] at h
  split at h
  · exact Option.noConfusion h
  · rename_i hlen
    injection h with h2
    subst h2
    refine ⟨?_, rfl, rfl, rfl, rfl, rfl, rfl, rfl⟩
    intro hnil
    exact hlen (by rw [hnil]; rfl)

theorem sqlGroupRow_isSome_of_ne (h : survIds db q pat sf cf tf df dt g ≠ []) :
    ∃ row, sqlGroupRow db q pat sf cf tf df dt g = some row := by
  rw [sqlGroupRow_def]
  rw [if_neg (fun h0 => h (List.length_eq_zero.mp h0))]
  exact ⟨_, rfl⟩

end SearchLemmas

theorem mem_survRows {db : DB} {q pat sf cf tf df dt : String} {g : ThreatGroup} {r : SRow} :
    r ∈ survRows db q pat sf cf tf df dt g ↔
      r ∈ rowsOf db g ∧ rowPasses q pat sf cf tf df dt g r = true := by
  unfold survRows
  exact List.mem_filter

theorem rowPasses_exchange {q pat sf cf tf df dt : String} {g : ThreatGroup} {r : SRow}
    (h : rowPasses q pat sf cf tf df dt g r = true) {a : String}
    (ha : strLike pat a = true) :
    rowPasses q pat sf cf tf df dt g ⟨r.inc, some a, r.ttp⟩ = true := by
  simp only [rowPasses, Bool.and_eq_true] at h ⊢
  obtain ⟨⟨⟨⟨⟨ht, hs⟩, hc⟩, htp⟩, hdf⟩, hdt⟩ := h
  refine ⟨⟨⟨⟨⟨?_, hs⟩, hc⟩, htp⟩, hdf⟩, hdt⟩
  by_cases hq : q = ""
  · simp [textPasses, hq]
  · simp [textPasses, hq, likeOpt, ha]

theorem rowsOf_exchange {db : DB} {g : ThreatGroup} {r : SRow} (hr : r ∈ rowsOf db g)
    {a : String} (ha : a ∈ aliasNamesOf db g.id) :
    (⟨r.inc, some a, r.ttp⟩ : SRow) ∈ rowsOf db g := by
  rcases mem_rowsOf.mp hr with ⟨h1, _, h3⟩
  exact mem_rowsOf.mpr ⟨h1, mem_leftOpt_some.mpr ha, h3⟩

theorem exists_surv_incident {db : DB} {q pat sf cf tf df dt : String} {g : ThreatGroup}
    (h : survIds db q pat sf cf tf df dt g ≠ []) :
    ∃ r ∈ survRows db q pat sf cf tf df dt g, ∃ i : Incident, r.inc = some i := by
  unfold survIds at h
  rcases List.exists_mem_of_ne_nil _ h with ⟨a, ha⟩
  rw [List.mem_dedup] at ha
  rcases List.mem_filterMap.mp ha with ⟨r, hr, hmap⟩
  rcases Option.map_eq_some'.mp hmap with ⟨i, hi, _⟩
  exact ⟨r, hr, i, hi⟩

theorem matchingAliasCase_eq_some {pat : String} {r : SRow} {s : String} :
    matchingAliasCase pat r = some s ↔ r.al = some s ∧ strLike pat s = true := by
  unfold matchingAliasCase
  cases h : r.al with
  | none => simp
  | some a =>
    show (if strLike pat a = true then some a else none) = some s ↔
      some a = some s ∧ strLike pat s = true
    by_cases hl : strLike pat a = true
    · rw [if_pos hl]
      constructor
      · rintro h2
        injection h2 with h3
        subst h3
        exact ⟨rfl, hl⟩
      · rintro ⟨h2, _⟩
        injection h2 with h3
        rw [h3]
    · rw [if_neg hl]
      constructor
      · rintro ⟨⟩
      · rintro ⟨h2, h4⟩
        injection h2 with h3
        exact absurd (h3 ▸ h4) hl

theorem alias_condition_iff {db : DB} {q pat sf cf tf df dt : String} {g : ThreatGroup}
    {row : SqlGroupRow} (h : sqlGroupRow db q pat sf cf tf df dt g = some row) :
    (row.matched_alias && truthyS row.matching_aliases) = true ↔
      ∃ a ∈ aliasNamesOf db g.id, a ≠ "" ∧ strLike pat a = true := by
  obtain ⟨hne, _, _, _, _, _, hma, hmal⟩ := sqlGroupRow_fields db q pat sf cf tf df dt g h
  constructor
  · rintro hcond
    rw [Bool.and_eq_true] at hcond
    obtain ⟨_, h2⟩ := hcond
    rw [hmal, truthy_group_concat] at h2
    rcases h2 with ⟨s, hs, hsne⟩
    rcases List.mem_filterMap.mp hs with ⟨r, hr, hcase⟩
    rcases matchingAliasCase_eq_some.mp hcase with ⟨hal, hlike⟩
    have hrow : r ∈ rowsOf db g := (mem_survRows.mp hr).1
    rcases mem_rowsOf.mp hrow with ⟨_, h2a, _⟩
    rw [hal] at h2a
    exact ⟨s, mem_leftOpt_some.mp h2a, hsne, hlike⟩
  · rintro ⟨a, hmem, hane, hlike⟩
    rcases exists_surv_incident hne with ⟨r0, hr0, i, hi⟩
    have hr0' := mem_survRows.mp hr0
    have hEx : (⟨r0.inc, some a, r0.ttp⟩ : SRow) ∈ survRows db q pat sf cf tf df dt g :=
      mem_survRows.mpr ⟨rowsOf_exchange hr0'.1 hmem, rowPasses_exchange hr0'.2 hlike⟩
    have hsmem : a ∈ (survRows db q pat sf cf tf df dt g).filterMap (matchingAliasCase pat) :=
      List.mem_filterMap.mpr ⟨⟨r0.inc, some a, r0.ttp⟩, hEx,
        matchingAliasCase_eq_some.mpr ⟨rfl, hlike⟩⟩
    rw [Bool.and_eq_true]
    constructor
    · rw [hma, List.any_eq_true]
      exact ⟨⟨r0.inc, some a, r0.ttp⟩, hEx, by simp [likeOpt, hlike]⟩
    · rw [hmal, truthy_group_concat]
      exact ⟨a, hsmem, hane⟩

theorem groupName_ne_alias (t : String) : "Group Name" ≠ "Alias: " ++ t := by
  intro h
  have h2 : ('G' :: 'r' :: 'o' :: 'u' :: 'p' :: ' ' :: 'N' :: 'a' :: 'm' :: 'e' :: []) =
      ('A' :: 'l' :: 'i' :: 'a' :: 's' :: ':' :: ' ' :: t.data) := congrArg String.data h
  injection h2 with h3 _
  exact absurd h3 (by decide)

theorem sector_ne_alias (t : String) : "Sector" ≠ "Alias: " ++ t := by
  intro h
  have h2 : ('S' :: 'e' :: 'c' :: 't' :: 'o' :: 'r' :: []) =
      ('A' :: 'l' :: 'i' :: 'a' :: 's' :: ':' :: ' ' :: t.data) := congrArg String.data h
  injection h2 with h3 _
  exact absurd h3 (by decide)

theorem ttp_ne_alias (t : String) : "TTP" ≠ "Alias: " ++ t := by
  intro h
  have h2 : ('T' :: 'T' :: 'P' :: []) =
      ('A' :: 'l' :: 'i' :: 'a' :: 's' :: ':' :: ' ' :: t.data) := congrArg String.data h
  injection h2 with h3 _
  exact absurd h3 (by decide)

theorem victim_ne_alias (t : String) : "Victim Name" ≠ "Alias: " ++ t := by
  intro h
  have h2 : ('V' :: 'i' :: 'c' :: 't' :: 'i' :: 'm' :: ' ' :: 'N' :: 'a' :: 'm' :: 'e' :: []) =
      ('A' :: 'l' :: 'i' :: 'a' :: 's' :: ':' :: ' ' :: t.data) := congrArg String.data h
  injection h2 with h3 _
  exact absurd h3 (by decide)

theorem mem_ifSingleton {c : Prop} [Decidable c] {a b : String}
    (h : a ∈ (if c then [b] else [])) : a = b := by
  split at h
  · exact List.mem_singleton.mp h
  · exact absurd h (List.not_mem_nil a)

theorem matchReasons_alias_iff (row : SqlGroupRow) :
    (∃ s ∈ matchReasons row, ∃ t, s = "Alias: " ++ t) ↔
      (row.matched_alias && truthyS row.matching_aliases) = true := by
  constructor
  · rintro ⟨s, hs, t, rfl⟩
    by_cases hc : (row.matched_alias && truthyS row.matching_aliases) = true
    · exact hc
    · exfalso
      unfold matchReasons at hs
      rw [if_neg hc] at hs
      simp only [List.append_nil, List.nil_append, List.mem_append] at hs
      rcases hs with ((h1 | h2) | h3) | h4
      · exact groupName_ne_alias t (mem_ifSingleton h1).symm
      · exact sector_ne_alias t (mem_ifSingleton h2).symm
      · exact ttp_ne_alias t (mem_ifSingleton h3).symm
      · exact victim_ne_alias t (mem_ifSingleton h4).symm
  · intro hc
    refine ⟨"Alias: " ++
      pyJoin ", "
        (((pySplit (row.matching_aliases.getD "")).filter (fun a => !(a == ""))).take 2),
      ?_, _, rfl⟩
    unfold matchReasons
    rw [if_pos hc]
    simp [List.mem_append]

/-! The claims. -/

/-- Claim C1, as stated, is false on the code: with an empty query the LIKE
pattern is `'%'`, which matches every alias, so an "Alias: …" match reason is
reported for a group having an alias even though no free-text query was
given.  Concretely: the empty-filter search over `exDb1` (one group with
alias "cobra" and one incident) reports the alias reason while the stripped
query is empty. -/
theorem c1_empty_query_alias_counterexample :
    ∃ e ∈ search exDb1 pEmpty,
      (∃ s ∈ e.match_reasons, ∃ t, s = "Alias: " ++ t) ∧ pyStrip pEmpty.query = "" := by
  refine ⟨⟨1, "alpha", 1, [], [], ["Group Name", "Alias: cobra"], none, none⟩, by decide,
    ⟨"Alias: cobra", by decide, "cobra", rfl⟩, rfl⟩

/-- Claim C1 (amended): for every search request and every group entry in its
result list, the match_reasons list contains an alias entry if and only if
the group has at least one non-empty alias matching the SQL LIKE pattern
built from the stripped free-text query (`'%query%'` for a non-empty query —
case-insensitive containment, with `%`/`_` acting as wildcards — and the
match-all pattern `'%'` for an empty query). -/
theorem c1_alias_attribution_amended (db : DB) (p : SearchPayload) (e : GroupSummary)
    (he : e ∈ search db p) : c1Prop db p e := by
  rcases (mem_search db).mp he with ⟨g, hg, row, hsome, rfl⟩
  obtain ⟨_, hid, _, _, _, _, _, _⟩ := sqlGroupRow_fields _ _ _ _ _ _ _ _ _ hsome
  unfold c1Prop
  have h1 : (pyFormat row).match_reasons = matchReasons row := rfl
  have h2 : (pyFormat row).group_id = row.group_id := rfl
  rw [h1, h2, hid]
  rw [matchReasons_alias_iff row]
  exact alias_condition_iff hsome

/-- Witness for C1 (amended) at the concrete database `exDb1` and the empty
payload. -/
theorem c1_alias_attribution_witness :
    c1Prop exDb1 pEmpty ⟨1, "alpha", 1, [], [], ["Group Name", "Alias: cobra"], none, none⟩ :=
  c1_alias_attribution_amended exDb1 pEmpty _ (by decide)

/-- Claim C5: the group-detail operation fails with NotFound (modelled as
`none`, the 404 of lines 302-304) exactly for identifiers resolving to no
group, returning no partial payload; for every identifier that resolves it
returns a full payload and never NotFound. -/
theorem c5_group_details_not_found (db : DB) (gid : Nat) :
    (group_details db gid = none ↔ ∀ g ∈ db.groups, g.id ≠ gid) ∧
      ((∃ g ∈ db.groups, g.id = gid) ↔ ∃ d, group_details db gid = some d) := by
  rcases h : db.groups.find? (fun g => g.id == gid) with _ | g
  · have hnone : group_details db gid = none := by
      unfold group_details
      rw [h]
    have hresolve : ∀ g ∈ db.groups, g.id ≠ gid := by
      intro g hg he
      have h2 := List.find?_eq_none.mp h g hg
      simp [he] at h2
    constructor
    · exact iff_of_true hnone hresolve
    · constructor
      · rintro ⟨g, hg, he⟩
        exact absurd he (hresolve g hg)
      · rintro ⟨d, hd⟩
        rw [hnone] at hd
        exact Option.noConfusion hd
  · have hsome : ∃ d, group_details db gid = some d := by
      unfold group_details
      rw [h]
      exact ⟨_, rfl⟩
    have hmem : g ∈ db.groups := List.mem_of_find?_eq_some h
    have hgid : g.id = gid := by
      have h2 := List.find?_some h
      rwa [beq_iff_eq] at h2
    constructor
    · rcases hsome with ⟨d, hd⟩
      rw [hd]
      constructor
      · rintro ⟨⟩
      · intro hall
        exact absurd hgid (hall g hmem)
    · exact iff_of_true ⟨g, hmem, hgid⟩ hsome

theorem searchSql_fst (p : SearchPayload) :
    (searchSql p).1 =
      sqlOfFlags (decide (pyStrip p.query = "")) (decide (pyStrip p.sector = ""))
        (decide (pyStrip p.country = "")) (decide (pyStrip p.ttp = ""))
        (decide (pyStrip p.date_from = "")) (decide (pyStrip p.date_to = "")) := by
  unfold searchSql sqlOfFlags
  by_cases h1 : pyStrip p.query = "" <;> by_cases h2 : pyStrip p.sector = "" <;>
    by_cases h3 : pyStrip p.country = "" <;> by_cases h4 : pyStrip p.ttp = "" <;>
    by_cases h5 : pyStrip p.date_from = "" <;> by_cases h6 : pyStrip p.date_to = "" <;>
    simp [h1, h2, h3, h4, h5, h6]

/-- Claim C6: for any two search payloads whose six stripped filter fields
are empty in exactly the same positions, the constructed SQL query text is
identical — the user-supplied values reach only the bound parameter list,
never the query string. -/
theorem c6_sql_text_independent_of_values (p1 p2 : SearchPayload)
    (hq : pyStrip p1.query = "" ↔ pyStrip p2.query = "")
    (hs : pyStrip p1.sector = "" ↔ pyStrip p2.sector = "")
    (hc : pyStrip p1.country = "" ↔ pyStrip p2.country = "")
    (ht : pyStrip p1.ttp = "" ↔ pyStrip p2.ttp = "")
    (hf : pyStrip p1.date_from = "" ↔ pyStrip p2.date_from = "")
    (hl : pyStrip p1.date_to = "" ↔ pyStrip p2.date_to = "") :
    (searchSql p1).1 = (searchSql p2).1 := by
  rw [searchSql_fst, searchSql_fst, decide_eq_decide.mpr hq, decide_eq_decide.mpr hs,
    decide_eq_decide.mpr hc, decide_eq_decide.mpr ht, decide_eq_decide.mpr hf,
    decide_eq_decide.mpr hl]

/-- Witness for C6: two payloads with different values but the same empty
positions yield the same SQL text. -/
theorem c6_sql_text_witness :
    (searchSql ⟨"abc", "Health", "", "", "", ""⟩).1 =
      (searchSql ⟨"zq", "Energy", "", "", "", ""⟩).1 :=
  c6_sql_text_independent_of_values _ _ (by decide) (by decide) (by decide) (by decide)
    (by decide) (by decide)

/-- Claim C7: when a date filter is given, an incident row survives the two
date clauses exactly when its (non-NULL) date is lexically within the bounds,
both bounds inclusive. -/
theorem c7_date_filter_inclusive (date_from date_to : String) (r : SRow) (i : Incident)
    (d : String) (_hne : date_from ≠ "" ∨ date_to ≠ "") (hinc : r.inc = some i)
    (hd : i.incident_date = some d) :
    ((dateFromPasses date_from r && dateToPasses date_to r) = true ↔
      ((date_from = "" ∨ date_from ≤ d) ∧ (date_to = "" ∨ d ≤ date_to))) := by
  unfold dateFromPasses dateToPasses
  rw [hinc]
  simp only [Option.some_bind, hd]
  by_cases h1 : date_from = "" <;> by_cases h2 : date_to = "" <;>
    simp [h1, h2, strLeb_le_iff]

/-- Witness for C7: the bounds `date_from = date_to = "2023-01-01"` retain an
incident dated exactly "2023-01-01". -/
theorem c7_date_filter_witness :
    ((dateFromPasses "2023-01-01" exRow7 && dateToPasses "2023-01-01" exRow7) = true ↔
      (("2023-01-01" = "" ∨ ("2023-01-01" : String) ≤ "2023-01-01") ∧
        ("2023-01-01" = "" ∨ ("2023-01-01" : String) ≤ "2023-01-01"))) :=
  c7_date_filter_inclusive "2023-01-01" "2023-01-01" exRow7 exInc7 "2023-01-01"
    (Or.inl (by decide)) rfl rfl

/-- Claim C8: each non-empty structured filter (sector, country, technique)
admits a row only under exact string equality with the corresponding column
value — never substring containment. -/
theorem c8_structured_filters_exact (sector_filter country_filter ttp_filter : String)
    (r : SRow) (hs : sector_filter ≠ "") (hc : country_filter ≠ "") (ht : ttp_filter ≠ "") :
    (sectorPasses sector_filter r = true ↔ r.inc.bind Incident.sector = some sector_filter) ∧
      (countryPasses country_filter r = true ↔
        r.inc.bind Incident.country = some country_filter) ∧
      (ttpPasses ttp_filter r = true ↔ r.ttp.map ttpDisplay = some ttp_filter) := by
  unfold sectorPasses countryPasses ttpPasses
  rw [if_neg hs, if_neg hc, if_neg ht]
  simp [beq_iff_eq]

/-- Witness for C8 at a row whose incident sector is "US Healthcare Sector":
the filter "Healthcare" matches only by equality, so the substring-carrying
label fails it. -/
theorem c8_structured_filters_witness :
    (sectorPasses "Healthcare" exRow8 = true ↔
        exRow8.inc.bind Incident.sector = some "Healthcare") ∧
      (countryPasses "France" exRow8 = true ↔
        exRow8.inc.bind Incident.country = some "France") ∧
      (ttpPasses "T1059 PowerShell" exRow8 = true ↔
        exRow8.ttp.map ttpDisplay = some "T1059 PowerShell") :=
  c8_structured_filters_exact "Healthcare" "France" "T1059 PowerShell" exRow8
    (by decide) (by decide) (by decide)

/-- Claim C2: every scored incident row produced by the group-detail query
carries exactly the spec's completeness score: one point per populated field
among sector, data_exposed, source_url, plus `length(data_exposed)/100`, plus
`0.5 ×` its number of distinct associated techniques — a pure function of the
incident's own fields and that association count.  (The query counts
association rows; with the association relation free of duplicate links, that
is the distinct technique count.) -/
theorem c2_completeness_score_formula (db : DB) (gid : Nat) (i : Incident) (sc : ℚ)
    (hmem : (i, sc) ∈ incidents_raw db gid) (hnd : db.incident_ttps.Nodup) :
    sc = spec_completeness_score i (distinctTechniqueCount db i) := by
  have hmem2 : (i, sc) ∈ (db.incidents.filter (fun j => j.group_id == some gid)).map
      (fun j => (j, completeness_score db j)) := by
    unfold incidents_raw at hmem
    exact (List.perm_insertionSort incOrder _).mem_iff.mp hmem
  rcases List.mem_map.mp hmem2 with ⟨i2, _, heq⟩
  rw [Prod.mk.injEq] at heq
  obtain ⟨h1, h2⟩ := heq
  subst h1
  subst h2
  unfold completeness_score spec_completeness_score distinctTechniqueCount
  have hnd2 : (db.incident_ttps.filter (fun it => it.incident_id == i2.id)).Nodup :=
    hnd.filter _
  have hmapnd :
      ((db.incident_ttps.filter (fun it => it.incident_id == i2.id)).map
        IncidentTtp.ttp_id).Nodup := by
    apply List.Nodup.map_on ?_ hnd2
    intro x hx y hy hxy
    have hx2 := (List.mem_filter.mp hx).2
    have hy2 := (List.mem_filter.mp hy).2
    rw [beq_iff_eq] at hx2 hy2
    cases x
    cases y
    simp_all
  have hcount :
      (((db.incident_ttps.filter (fun it => it.incident_id == i2.id)).map
        IncidentTtp.ttp_id).dedup).length =
        (db.incident_ttps.filter (fun it => it.incident_id == i2.id)).length := by
    rw [List.dedup_eq_self.mpr hmapnd, List.length_map]
  rw [hcount, mul_comm]

/-- Witness for C2 at the one-incident database `exDb2`. -/
theorem c2_completeness_score_witness :
    completeness_score exDb2 ⟨1, some 1, none, none, none, none, none, none⟩ =
      spec_completeness_score ⟨1, some 1, none, none, none, none, none, none⟩
        (distinctTechniqueCount exDb2 ⟨1, some 1, none, none, none, none, none, none⟩) :=
  c2_completeness_score_formula exDb2 1 _ _ (List.Mem.head _) (by decide)

/-- Claim C4: for every existing group, the detail payload's incident list is
the completeness-scored result set, which is ordered by score descending with
ties broken by incident date descending, and contains exactly the group's
incidents. -/
theorem c4_incident_ordering (db : DB) (gid : Nat)
    (hfound : (db.groups.find? (fun g => g.id == gid)).isSome = true) :
    ∃ pay, group_details db gid = some pay ∧
      pay.incidents = (incidents_raw db gid).map (incidentView db) ∧
      List.Sorted incOrder (incidents_raw db gid) ∧
      List.Perm ((incidents_raw db gid).map Prod.fst)
        (db.incidents.filter (fun i => i.group_id == some gid)) := by
  rcases Option.isSome_iff_exists.mp hfound with ⟨g, hg⟩
  have hpay : ∃ pay, group_details db gid = some pay ∧
      pay.incidents = (incidents_raw db gid).map (incidentView db) := by
    unfold group_details
    rw [hg]
    exact ⟨_, rfl, rfl⟩
  rcases hpay with ⟨pay, hp1, hp2⟩
  refine ⟨pay, hp1, hp2, List.sorted_insertionSort incOrder _, ?_⟩
  have hperm :=
    (List.perm_insertionSort incOrder
        ((db.incidents.filter (fun i => i.group_id == some gid)).map
          (fun i => (i, completeness_score db i)))).map Prod.fst
  rw [List.map_map] at hperm
  have h2 : (Prod.fst ∘ fun i : Incident => (i, completeness_score db i)) = id := rfl
  rw [h2, List.map_id] at hperm
  simpa [incidents_raw] using hperm

/-- Witness for C4 at the one-group, one-incident database `exDb2`. -/
theorem c4_incident_ordering_witness :
    ∃ pay, group_details exDb2 1 = some pay ∧
      pay.incidents = (incidents_raw exDb2 1).map (incidentView exDb2) ∧
      List.Sorted incOrder (incidents_raw exDb2 1) ∧
      List.Perm ((incidents_raw exDb2 1).map Prod.fst)
        (exDb2.incidents.filter (fun i => i.group_id == some 1)) :=
  c4_incident_ordering exDb2 1 (by decide)

theorem rowPasses_all_empty (pat : String) (g : ThreatGroup) (r : SRow) :
    rowPasses "" pat "" "" "" "" "" g r = true := by
  simp [rowPasses, textPasses, sectorPasses, countryPasses, ttpPasses, dateFromPasses,
    dateToPasses]

theorem survRows_all_empty (db : DB) (pat : String) (g : ThreatGroup) :
    survRows db "" pat "" "" "" "" "" g = rowsOf db g := by
  unfold survRows
  apply List.filter_eq_self.mpr
  intro r _
  exact rowPasses_all_empty pat g r

theorem mem_ids_iff {db : DB} {g : ThreatGroup} {a : Nat} :
    a ∈ (rowsOf db g).filterMap (fun r => r.inc.map Incident.id) ↔
      a ∈ (incidentsOf db g.id).map Incident.id := by
  constructor
  · intro h
    rcases List.mem_filterMap.mp h with ⟨r, hr, hmap⟩
    rcases Option.map_eq_some'.mp hmap with ⟨i, hi, hid⟩
    rcases mem_rowsOf.mp hr with ⟨h1, _, _⟩
    rw [hi] at h1
    exact List.mem_map.mpr ⟨i, mem_leftOpt_some.mp h1, hid⟩
  · intro h
    rcases List.mem_map.mp h with ⟨i, hi, hid⟩
    rcases List.exists_mem_of_ne_nil _ (leftOpt_ne_nil (aliasNamesOf db g.id)) with ⟨oa, hoa⟩
    rcases List.exists_mem_of_ne_nil _ (ttpRowsFor_ne_nil db (some i)) with ⟨ot, hot⟩
    refine List.mem_filterMap.mpr ⟨⟨some i, oa, ot⟩, ?_, ?_⟩
    · exact mem_rowsOf.mpr ⟨mem_leftOpt_some.mpr hi, hoa, hot⟩
    · simp [hid]

theorem survIds_all_empty_mem {db : DB} {pat : String} {g : ThreatGroup} {a : Nat} :
    a ∈ survIds db "" pat "" "" "" "" "" g ↔ a ∈ (incidentsOf db g.id).map Incident.id := by
  unfold survIds
  rw [survRows_all_empty, List.mem_dedup]
  exact mem_ids_iff

theorem summary_incident_exists {db : DB} {pat : String} {g : ThreatGroup}
    (hne : survIds db "" pat "" "" "" "" "" g ≠ []) :
    ∃ i ∈ db.incidents, i.group_id = some g.id := by
  rcases List.exists_mem_of_ne_nil _ hne with ⟨a, ha⟩
  rw [survIds_all_empty_mem] at ha
  rcases List.mem_map.mp ha with ⟨i, hi, _⟩
  have h2 := List.mem_filter.mp hi
  refine ⟨i, h2.1, ?_⟩
  have h3 := h2.2
  rwa [beq_iff_eq] at h3

/-- Claim C3: for every search request with all six (stripped) filter fields
empty, the result contains exactly the groups having at least one incident,
each with its distinct incident count, ordered primarily by incident count
descending and secondarily by group name ascending; groups with zero
incidents are excluded. -/
theorem c3_empty_filter_search (db : DB) (p : SearchPayload)
    (h1 : pyStrip p.query = "") (h2 : pyStrip p.sector = "") (h3 : pyStrip p.country = "")
    (h4 : pyStrip p.ttp = "") (h5 : pyStrip p.date_from = "") (h6 : pyStrip p.date_to = "") :
    c3Prop db p := by
  refine ⟨?_, ?_, ?_, ?_⟩
  · intro g hg
    constructor
    · rintro ⟨e, he, hid, _⟩
      rcases (mem_search db).mp he with ⟨g2, _, row, hsome, rfl⟩
      rw [h1, h2, h3, h4, h5, h6] at hsome
      obtain ⟨hne, hgid, _⟩ := sqlGroupRow_fields _ _ _ _ _ _ _ _ _ hsome
      rcases summary_incident_exists hne with ⟨i, hi, hgi⟩
      refine ⟨i, hi, ?_⟩
      rw [hgi]
      have hsame : g2.id = g.id := by
        rw [← hid]
        show g2.id = row.group_id
        rw [hgid]
      rw [hsame]
    · rintro ⟨i, hi, hgi⟩
      have hmem : i.id ∈ (incidentsOf db g.id).map Incident.id := by
        refine List.mem_map.mpr ⟨i, ?_, rfl⟩
        unfold incidentsOf
        refine List.mem_filter.mpr ⟨hi, ?_⟩
        rw [beq_iff_eq]
        exact hgi
      have hne : survIds db "" (likePattern "") "" "" "" "" "" g ≠ [] := by
        intro hnil
        rw [← @survIds_all_empty_mem db (likePattern "") g i.id] at hmem
        rw [hnil] at hmem
        exact List.not_mem_nil _ hmem
      rcases sqlGroupRow_isSome_of_ne db "" (likePattern "") "" "" "" "" "" g
          hne with ⟨row, hrow⟩
      obtain ⟨_, hgid, hgname, _⟩ := sqlGroupRow_fields _ _ _ _ _ _ _ _ _ hrow
      refine ⟨pyFormat row, ?_, hgid, hgname⟩
      apply (mem_search db).mpr
      refine ⟨g, hg, row, ?_, rfl⟩
      rw [h1, h2, h3, h4, h5, h6]
      exact hrow
  · intro e he
    rcases (mem_search db).mp he with ⟨g2, hg2, row, hsome, rfl⟩
    rw [h1, h2, h3, h4, h5, h6] at hsome
    obtain ⟨hne, hgid, hgname, _⟩ := sqlGroupRow_fields _ _ _ _ _ _ _ _ _ hsome
    exact ⟨g2, hg2, hgid, hgname, summary_incident_exists hne⟩
  · intro e he
    rcases (mem_search db).mp he with ⟨g2, _, row, hsome, rfl⟩
    rw [h1, h2, h3, h4, h5, h6] at hsome
    obtain ⟨_, hgid, _, hcount, _⟩ := sqlGroupRow_fields _ _ _ _ _ _ _ _ _ hsome
    show row.incident_count =
      ((db.incidents.filter (fun i => i.group_id == some row.group_id)).map
        Incident.id).dedup.length
    rw [hcount, hgid]
    unfold survIds
    rw [survRows_all_empty]
    exact dedup_length_eq_of_mem_iff (fun a => mem_ids_iff)
  · rw [search_eq, List.pairwise_map]
    exact List.Pairwise.imp (fun hab => hab) (List.sorted_insertionSort groupOrder _)

/-- Witness for C3 at the two-incident database `exDb9` and the empty
payload. -/
theorem c3_empty_filter_search_witness : c3Prop exDb9 pEmpty :=
  c3_empty_filter_search exDb9 pEmpty rfl rfl rfl rfl rfl rfl

theorem pyListField_nodup_sorted (o : Option String) :
    (pyListField o).Nodup ∧ (pyListField o).Sorted (fun a b : String => a ≤ b) := by
  cases o with
  | none => simp [pyListField]
  | some s =>
    have hred : pyListField (some s) =
        if s = "" then []
        else List.insertionSort strLeP (((pySplit s).filter (fun x => !(x == ""))).dedup) := rfl
    rw [hred]
    by_cases hs : s = ""
    · simp [hs]
    · rw [if_neg hs]
      constructor
      · exact ((List.perm_insertionSort strLeP _).nodup_iff).mpr (List.nodup_dedup _)
      · exact List.Pairwise.imp (fun h => (strLeP_iff _ _).mp h)
          (List.sorted_insertionSort strLeP _)

/-- Claim C9: in every search result entry, the sectors list and the
countries list contain no duplicates and are sorted in ascending lexical
order. -/
theorem c9_sectors_countries_sorted_nodup (db : DB) (p : SearchPayload) (e : GroupSummary)
    (he : e ∈ search db p) :
    e.sectors.Nodup ∧ e.sectors.Sorted (fun a b : String => a ≤ b) ∧
      e.countries.Nodup ∧ e.countries.Sorted (fun a b : String => a ≤ b) := by
  rcases (mem_search db).mp he with ⟨g2, _, row, _, rfl⟩
  have hsec := pyListField_nodup_sorted row.sectors
  have hcou := pyListField_nodup_sorted row.countries
  exact ⟨hsec.1, hsec.2, hcou.1, hcou.2⟩

/-- Witness for C9 at `exDb9`, whose single result entry carries sectors
["a", "b"] and countries ["x", "y"]. -/
theorem c9_sectors_countries_witness :
    (["a", "b"] : List String).Nodup ∧
      (["a", "b"] : List String).Sorted (fun a b : String => a ≤ b) ∧
      (["x", "y"] : List String).Nodup ∧
      (["x", "y"] : List String).Sorted (fun a b : String => a ≤ b) :=
  c9_sectors_countries_sorted_nodup exDb9 pEmpty
    ⟨1, "alpha", 2, ["a", "b"], ["x", "y"], ["Group Name", "Sector"], none, none⟩ (by decide)

theorem pyListField_group_concat (L : List String) (hnc : ∀ l ∈ L, ',' ∉ l.data) :
    pyListField (group_concat L) =
      List.insertionSort strLeP ((L.dedup).filter (fun x => !(x == ""))) := by
  rcases h : L.dedup with _ | ⟨x, xs⟩
  · rw [List.dedup_eq_nil] at h
    subst h
    rfl
  · have hnc2 : ∀ l ∈ x :: xs, ',' ∉ l.data := fun l hl =>
      hnc l (by rw [← List.mem_dedup, h]; exact hl)
    have hgc : group_concat L = some (pyJoin "," (x :: xs)) := by
      unfold group_concat
      rw [h]
    rw [hgc]
    show (if pyJoin "," (x :: xs) = "" then []
        else List.insertionSort strLeP
          (((pySplit (pyJoin "," (x :: xs))).filter (fun x => !(x == ""))).dedup)) = _
    have hnd : (x :: xs).Nodup := h ▸ List.nodup_dedup L
    by_cases hj : pyJoin "," (x :: xs) = ""
    · rw [if_pos hj]
      rcases (pyJoin_comma_eq_empty x xs).mp hj with ⟨hx, hxs⟩
      subst hx
      subst hxs
      rfl
    · rw [if_neg hj, pySplit_pyJoin (x :: xs) (by simp) hnc2,
        List.dedup_eq_self.mpr (hnd.filter _)]

/-- Claim C10: the sectors/countries lists are produced by comma-joining the
distinct labels and re-splitting on commas, so they equal the sorted set of
distinct non-empty labels only when no label contains a comma; a label
containing a comma is returned as its comma-delimited fragments — concretely,
the single sector label "A,B" of `exDb10` comes back as ["A", "B"]. -/
theorem c10_comma_join_split :
    (∀ (db : DB) (p : SearchPayload) (e : GroupSummary), e ∈ search db p → c10Prop db p e) ∧
      (search exDb10 pEmpty).map GroupSummary.sectors = [["A", "B"]] := by
  constructor
  · intro db p e he
    rcases (mem_search db).mp he with ⟨g2, hg2, row, hsome, rfl⟩
    obtain ⟨_, hgid, _, _, hsec, hcou, _⟩ := sqlGroupRow_fields _ _ _ _ _ _ _ _ _ hsome
    refine ⟨g2, hg2, hgid, ?_, ?_⟩
    · intro hnc
      show pyListField row.sectors = _
      rw [hsec]
      exact pyListField_group_concat _ hnc
    · intro hnc
      show pyListField row.countries = _
      rw [hcou]
      exact pyListField_group_concat _ hnc
  · decide

/-- Witness for C10's general part at `exDb10`. -/
theorem c10_comma_join_split_witness :
    c10Prop exDb10 pEmpty ⟨1, "alpha", 1, ["A", "B"], [], ["Group Name", "Sector"], none, none⟩ :=
  c10_comma_join_split.1 exDb10 pEmpty _ (by decide)
